import Mathlib

set_option autoImplicit false

/-!
Verification of the path-sandboxing and tool-dispatch engine of the
gemini-engineer repository (src/main.py).

Embedding conventions, used throughout:

* Python strings are modelled as `Str := List Char`.  File contents are
  modelled with one `Char` per byte (the development only ever evaluates
  them on single-byte characters), so a file content and its on-disk byte
  sequence coincide; `stat().st_size` is the length of the content.
* The host environment is a record `FS`: `cwd` is the resolved process
  working directory (`Path.cwd().resolve()`), `resolve` is the host
  absolute-path-and-symlink resolution (`Path(p).resolve()`),
  `guessMime` is the `mimetypes.guess_type` table, `files` maps resolved
  paths of regular files to their contents, and `dirs` lists resolved paths
  of existing directories.
* Python functions that return a result dict with either a `success`
  payload or an `error` key are modelled as `OpResult`; a raised Python
  exception that escapes a function is modelled as the `Except.error`
  side of an outer `Except (Str × FS)`, carrying the filesystem state at
  the point of the raise.  Exception texts that the source interpolates
  from Python exception objects (TypeError, IsADirectoryError, ...) are
  abbreviated to the exception class name; messages built by the source
  itself are transcribed verbatim (single-quote characters are written
  via `sqc`).
-/

abbrev Str := List Char

def chars (s : String) : Str := s.toList

/-- A single-quote character, written by code point to keep message strings
verbatim. -/
def sqc : Str := [Char.ofNat 39]

def quoted (s : Str) : Str := sqc ++ s ++ sqc

def nulChar : Char := Char.ofNat 0

def natStr (n : Nat) : Str := (Nat.repr n).toList

/-- src/main.py line 41: file size limit (1MB). -/
def MAX_FILE_SIZE : Nat := 1024 * 1024

/-- Python `s in c` substring test (`str.__contains__`); the empty string is
a substring of everything. -/
def containsSub (c s : Str) : Bool :=
  if s.isPrefixOf c then true
  else match c with
    | [] => false
    | _ :: xs => containsSub xs s

/-- Index of the first (leftmost) occurrence of `s` in `c`, the position
Python `str.replace(s, t, 1)` rewrites. -/
def firstIdx? (c s : Str) : Option Nat :=
  if s.isPrefixOf c then some 0
  else match c with
    | [] => none
    | _ :: xs => (firstIdx? xs s).map (· + 1)

/-- Python `c.replace(s, t, 1)`: replace the first occurrence of `s` only
(the empty pattern inserts `t` in front, like Python). -/
def replaceFirst (c s t : Str) : Str :=
  if s.isPrefixOf c then t ++ c.drop s.length
  else match c with
    | [] => []
    | x :: xs => x :: replaceFirst xs s t

/-- `occursAt c s i`: `s` matches in `c` starting at index `i`. -/
def occursAt (c s : Str) (i : Nat) : Prop := s.isPrefixOf (c.drop i) = true

/-- Final component of a path (`pathlib.PurePath.name` for resolved,
slash-separated absolute paths). -/
def pathName (p : Str) : Str :=
  p.foldl (fun acc ch => if ch = '/' then [] else acc ++ [ch]) []

def lastDotIdx (n : Str) : Option Nat :=
  ((List.range n.length).filter (fun i => (n.drop i).head? = some '.')).getLast?

/-- `pathlib.PurePath.suffix`: the extension of the final component,
empty for names whose only dot is leading or trailing. -/
def suffixOf (p : Str) : Str :=
  let n := pathName p
  match lastDotIdx n with
  | some i => if 0 < i && i < n.length - 1 then n.drop i else []
  | none => []

def lowerStr (s : Str) : Str := s.map Char.toLower

/-- src/main.py line 102: the known-text extension allowlist. -/
def textExts : List Str :=
  [chars ".txt", chars ".py", chars ".js", chars ".ts", chars ".html",
   chars ".css", chars ".json", chars ".xml", chars ".yaml", chars ".yml",
   chars ".md", chars ".rst", chars ".sh", chars ".bat", chars ".gitignore",
   chars ".env", chars ".toml"]

/-- Parent directory of a resolved path (`pathlib.PurePath.parent`). -/
def parentDir (p : Str) : Str :=
  match p.reverse.dropWhile (fun c => c ≠ '/') with
  | [] => ['.']
  | [_] => ['/']
  | _ :: t => t.reverse

/-- The directories `parent.mkdir(parents=True)` guarantees to exist: every
nonempty slash-boundary prefix of `p`, and `p` itself. -/
def dirPrefixes (p : Str) : List Str :=
  (List.range (p.length + 1)).filterMap (fun i =>
    if i = 0 then none
    else if i = p.length then some (p.take i)
    else if (p.drop i).head? = some '/' then some (p.take i)
    else none)

/-- `q` is `d` itself or a path-ancestor of `d`. -/
def isAncestorOrSelf (q d : Str) : Bool := q == d || (q ++ ['/']).isPrefixOf d

/-- If `q` is an immediate child of directory `d`, its entry name. -/
def childName (d : Str) (q : Str) : Option Str :=
  let pre := if d == chars "/" then d else d ++ ['/']
  if pre.isPrefixOf q then
    let nm := q.drop pre.length
    if !nm.isEmpty && !nm.contains '/' then some nm else none
  else none

/-- The host environment: working directory, path resolution, the
`mimetypes` table, and the filesystem contents (keyed by resolved path). -/
structure FS where
  cwd : Str
  resolve : Str → Str
  guessMime : Str → Option Str
  files : List (Str × Str)
  dirs : List Str

def FS.lookupFile (fs : FS) (p : Str) : Option Str := fs.files.lookup p

def FS.isFile (fs : FS) (p : Str) : Bool := (fs.lookupFile p).isSome

def FS.isDir (fs : FS) (p : Str) : Bool := fs.dirs.contains p

/-- `Path.exists()`. -/
def FS.pexists (fs : FS) (p : Str) : Bool := fs.isFile p || fs.isDir p

/-- `stat().st_size` of a regular file (0 if absent; only consulted on
existing files). -/
def FS.st_size (fs : FS) (p : Str) : Nat :=
  match fs.lookupFile p with
  | some c => c.length
  | none => 0

/-- Writing a regular file: `open(p, "w").write(c)`. -/
def FS.setFile (fs : FS) (p c : Str) : FS :=
  { fs with files := (p, c) :: fs.files.filter (fun kv => !(kv.1 == p)) }

/-- `parent.mkdir(parents=True, exist_ok=True)`: add the missing directory
chain. -/
def FS.mkdirParents (fs : FS) (parent : Str) : FS :=
  { fs with dirs := (dirPrefixes parent).filter (fun d => !(fs.dirs.contains d)) ++ fs.dirs }

/-- `Path.iterdir()`: names of the immediate children of `d`. -/
def FS.iterdir (fs : FS) (d : Str) : List Str :=
  (fs.files.map Prod.fst ++ fs.dirs).filterMap (childName d)

def outsideMsg (file_path : Str) : Str :=
  chars "Path " ++ file_path ++ chars " is outside the current directory"

/-- src/main.py lines 74-87 (`normalize_path`): resolve the candidate and
accept it iff the string form of the resolved path starts with the string
form of the working directory; a rejected path raises `ValueError`,
modelled as `Except.error`. -/
def normalize_path (fs : FS) (file_path : Str) : Except Str Str :=
  let path := fs.resolve file_path
  if fs.cwd.isPrefixOf path then .ok path else .error (outsideMsg file_path)

/-- src/main.py lines 89-97 (`is_binary_file`): sniff the first 1024 bytes
for a NUL byte; an unreadable target (absent, or a directory, whose
`open(..., "rb")` raises) counts as binary. -/
def is_binary_file (fs : FS) (file_path : Str) : Bool :=
  match fs.lookupFile file_path with
  | some c => (c.take 1024).contains nulChar
  | none => true

def mimeIsText (fs : FS) (p : Str) : Bool :=
  match fs.guessMime p with
  | some m => (chars "text/").isPrefixOf m
  | none => false

/-- src/main.py lines 99-111 (`is_text_file`): extension allowlist, then
MIME guess, then the binary sniff as fallback. -/
def is_text_file (fs : FS) (file_path : Str) : Bool :=
  if textExts.contains (lowerStr (suffixOf file_path)) then true
  else if mimeIsText fs file_path then true
  else !(is_binary_file fs file_path)

/-- Result envelope: a Python dict that is either a success payload or
carries an `error` key. -/
inductive OpResult (α : Type) where
  | ok (v : α)
  | error (msg : Str)
deriving DecidableEq, Repr

def OpResult.isOk {α : Type} : OpResult α → Bool
  | .ok _ => true
  | .error _ => false

structure ReadOk where
  file_path : Str
  content : Str
  size : Nat
deriving DecidableEq, Repr

structure CreateOk where
  file_path : Str
  size : Nat
  message : Str
deriving DecidableEq, Repr

structure EditChanges where
  original_length : Nat
  new_length : Nat
  diff : Int
deriving DecidableEq, Repr

structure EditOk where
  file_path : Str
  message : Str
  changes : EditChanges
deriving DecidableEq, Repr

structure ListItem where
  name : Str
  type : Str
  size : Option Nat
deriving DecidableEq, Repr

structure ListOk where
  directory : Str
  items : List ListItem
  count : Nat
deriving DecidableEq, Repr

def readFailMsg (fp e : Str) : Str := chars "Failed to read " ++ quoted fp ++ chars ": " ++ e

def notExistMsg (fp : Str) : Str := chars "File " ++ quoted fp ++ chars " does not exist"

def notFileMsg (fp : Str) : Str := quoted fp ++ chars " is not a file"

def tooLargeMsg (fp : Str) : Str :=
  chars "File " ++ quoted fp ++ chars " is too large (max " ++ natStr MAX_FILE_SIZE ++ chars " bytes)"

def binaryMsg (fp : Str) : Str :=
  chars "File " ++ quoted fp ++ chars " appears to be binary or non-textual"

/-- src/main.py lines 113-140 (`read_local_file`): guards in source order —
sandbox check (its `ValueError` caught by the catch-all), existence,
regular-file, size ceiling, text classification — then the content. -/
def read_local_file (fs : FS) (file_path : Str) : OpResult ReadOk :=
  match normalize_path fs file_path with
  | .error e => .error (readFailMsg file_path e)
  | .ok path =>
    if !(fs.pexists path) then .error (notExistMsg file_path)
    else match fs.lookupFile path with
      | none => .error (notFileMsg file_path)
      | some content =>
        if content.length > MAX_FILE_SIZE then .error (tooLargeMsg file_path)
        else if !(is_text_file fs path) then .error (binaryMsg file_path)
        else .ok { file_path := path, content := content, size := content.length }

def createFailMsg (fp e : Str) : Str := chars "Failed to create " ++ quoted fp ++ chars ": " ++ e

def createdMsg (fp : Str) : Str := chars "File " ++ quoted fp ++ chars " created successfully"

/-- src/main.py lines 160-178 (`create_file`): sandbox check, create parent
directories, then write (overwriting unconditionally).  `mkdir` raises when
an existing regular file blocks the chain; `open(path, "w")` raises when
`path` is a directory; both land in the catch-all. -/
def create_file (fs : FS) (file_path content : Str) : OpResult CreateOk × FS :=
  match normalize_path fs file_path with
  | .error e => (.error (createFailMsg file_path e), fs)
  | .ok path =>
    if fs.files.any (fun kv => isAncestorOrSelf kv.1 (parentDir path)) then
      (.error (createFailMsg file_path (chars "NotADirectoryError")), fs)
    else
      let fs1 := fs.mkdirParents (parentDir path)
      if fs1.isDir path then
        (.error (createFailMsg file_path (chars "IsADirectoryError")), fs1)
      else
        (.ok { file_path := path, size := content.length, message := createdMsg file_path },
         fs1.setFile path content)

def editFailMsg (fp e : Str) : Str := chars "Failed to edit " ++ quoted fp ++ chars ": " ++ e

def editedMsg (fp : Str) : Str := chars "File " ++ quoted fp ++ chars " edited successfully"

def snippetMsg (fp : Str) : Str := chars "Original snippet not found in " ++ quoted fp

/-- src/main.py lines 202-236 (`edit_file`): sandbox check, existence, read
the whole content (a directory target raises into the catch-all), require
the snippet to be a literal substring, replace its first occurrence only,
write back. -/
def edit_file (fs : FS) (file_path original_snippet new_snippet : Str) : OpResult EditOk × FS :=
  match normalize_path fs file_path with
  | .error e => (.error (editFailMsg file_path e), fs)
  | .ok path =>
    if !(fs.pexists path) then (.error (notExistMsg file_path), fs)
    else match fs.lookupFile path with
      | none => (.error (editFailMsg file_path (chars "IsADirectoryError")), fs)
      | some content =>
        if !(containsSub content original_snippet) then (.error (snippetMsg file_path), fs)
        else
          let new_content := replaceFirst content original_snippet new_snippet
          (.ok { file_path := path, message := editedMsg file_path,
                 changes := { original_length := content.length,
                              new_length := new_content.length,
                              diff := (new_content.length : Int) - (content.length : Int) } },
           fs.setFile path new_content)

def listFailMsg (dp e : Str) : Str :=
  chars "Failed to list directory " ++ quoted dp ++ chars ": " ++ e

def dirNotExistMsg (dp : Str) : Str := chars "Directory " ++ quoted dp ++ chars " does not exist"

def notDirMsg (dp : Str) : Str := quoted dp ++ chars " is not a directory"

/-- src/main.py line 252: the fixed conventional ignore set. -/
def ignoreNames : List Str := [chars "__pycache__", chars "venv", chars "node_modules"]

/-- One row of the listing loop body (src/main.py lines 255-259). -/
def entryOf (fs : FS) (path nm : Str) : ListItem :=
  let child := (if path == chars "/" then path else path ++ ['/']) ++ nm
  { name := nm,
    type := if fs.isDir child then chars "directory" else chars "file",
    size := match fs.lookupFile child with
            | some c => some c.length
            | none => none }

/-- The listing loop (src/main.py lines 250-260): skip hidden names and the
ignore set, append an item row otherwise. -/
def ld_go (fs : FS) (path : Str) : List Str → List ListItem
  | [] => []
  | nm :: rest =>
    if ['.'].isPrefixOf nm || ignoreNames.contains nm then ld_go fs path rest
    else entryOf fs path nm :: ld_go fs path rest

/-- src/main.py lines 238-269 (`list_directory`). -/
def list_directory (fs : FS) (dir_path : Str) : OpResult ListOk :=
  match normalize_path fs dir_path with
  | .error e => .error (listFailMsg dir_path e)
  | .ok path =>
    if !(fs.pexists path) then .error (dirNotExistMsg dir_path)
    else if !(fs.isDir path) then .error (notDirMsg dir_path)
    else
      let items := ld_go fs path (fs.iterdir path)
      .ok { directory := path, items := items, count := items.length }

/-- Dynamically typed parameter values handed over by the orchestrator
(protobuf args decoded to strings, lists and dicts in
`stream_gemini_response`). -/
inductive Value where
  | vstr (s : Str)
  | vlist (l : List Value)
  | vdict (d : List (Str × Value))

/-- Rendering of a non-string value inside an f-string message; abbreviated
(Python prints the full repr). -/
def pyStr : Value → Str
  | .vstr s => s
  | .vlist _ => chars "[...]"
  | .vdict _ => chars "<dict>"

/-- The parameter bag of `execute_tool` (a Python dict, keys unique). -/
abbrev Params := List (Str × Value)

/-- `read_file` at the dynamic level: a non-string `file_path` makes
`Path()` raise `TypeError` inside the try of `read_local_file`, which
reports its own failure. -/
def call_read_file (fs : FS) (v : Value) : OpResult ReadOk :=
  match v with
  | .vstr s => read_local_file fs s
  | _ => .error (readFailMsg (pyStr v) (chars "TypeError"))

structure BatchRead where
  success : Bool
  files : List (Str × ReadOk)
  errors : List Str
deriving DecidableEq, Repr

/-- The loop of src/main.py lines 147-152: read each path independently,
recording per-item failures. -/
def rmf_go (fs : FS) : List Value → List (Str × ReadOk) → List Str → List (Str × ReadOk) × List Str
  | [], results, errors => (results, errors)
  | item :: rest, results, errors =>
    match call_read_file fs item with
    | .error e => rmf_go fs rest results (errors ++ [quoted (pyStr item) ++ chars ": " ++ e])
    | .ok r => rmf_go fs rest (results ++ [(pyStr item, r)]) errors

/-- src/main.py lines 142-158 (`read_multiple_files`): fan-out of
`read_local_file`; `success` is computed at the end as `errors == []`. -/
def read_multiple_files (fs : FS) (file_paths : List Value) : BatchRead :=
  let (results, errors) := rmf_go fs file_paths [] []
  { success := errors.isEmpty, files := results, errors := errors }

/-- `create_file` at the dynamic level: a non-string `file_path` makes
`Path()` raise inside the try; a non-string `content` fails at `f.write`
after `open(.., "w")` already truncated the target. -/
def call_create_file (fs : FS) (vp vc : Value) : OpResult CreateOk × FS :=
  match vp with
  | .vstr p =>
    match vc with
    | .vstr c => create_file fs p c
    | _ =>
      match create_file fs p [] with
      | (.ok _, fs1) => (.error (createFailMsg p (chars "TypeError")), fs1)
      | (.error e, fs1) => (.error e, fs1)
  | _ => (.error (createFailMsg (pyStr vp) (chars "TypeError")), fs)

/-- Python `"k" in x` for the membership tests of `create_multiple_files`:
key lookup on dicts, substring test on strings, element equality on lists. -/
def containsKey (x : Value) (k : Str) : Bool :=
  match x with
  | .vdict d => (d.lookup k).isSome
  | .vstr s => containsSub s k
  | .vlist l => l.any (fun v => match v with | .vstr s => s == k | _ => false)

/-- Python `x["k"]`: succeeds only on dicts holding the key; strings and
lists raise `TypeError` on a string index (`Except.error`). -/
def getItem (x : Value) (k : Str) : Except Str Value :=
  match x with
  | .vdict d =>
    match d.lookup k with
    | some v => .ok v
    | none => .error (chars "KeyError")
  | _ => .error (chars "TypeError")

structure BatchCreate where
  success : Bool
  files : List (Str × CreateOk)
  errors : List Str
deriving DecidableEq, Repr

def malformedMsg : Str :=
  chars "File info must contain " ++ quoted (chars "path") ++ chars " and " ++
    quoted (chars "content") ++ chars " keys"

/-- The loop of src/main.py lines 185-194.  `create_multiple_files` has no
try of its own, so a raised `TypeError` (string index on a non-dict entry
that passes the membership test) escapes with the filesystem as mutated so
far. -/
def cmf_go (fs : FS) : List Value → List (Str × CreateOk) → List Str →
    Except (Str × FS) (BatchCreate × FS)
  | [], results, errors =>
    .ok ({ success := errors.isEmpty, files := results, errors := errors }, fs)
  | item :: rest, results, errors =>
    if !(containsKey item (chars "path")) || !(containsKey item (chars "content")) then
      cmf_go fs rest results (errors ++ [malformedMsg])
    else
      match getItem item (chars "path") with
      | .error e => .error (e, fs)
      | .ok vp =>
        match getItem item (chars "content") with
        | .error e => .error (e, fs)
        | .ok vc =>
          match call_create_file fs vp vc with
          | (.error e, fs1) =>
            cmf_go fs1 rest results (errors ++ [quoted (pyStr vp) ++ chars ": " ++ e])
          | (.ok r, fs1) => cmf_go fs1 rest (results ++ [(pyStr vp, r)]) errors

/-- src/main.py lines 180-200 (`create_multiple_files`). -/
def create_multiple_files (fs : FS) (files : List Value) :
    Except (Str × FS) (BatchCreate × FS) :=
  cmf_go fs files [] []

/-- `edit_file` at the dynamic level: non-string arguments raise where
Python uses them (`Path()`, the `in` test, `str.replace`), always inside
the try of `edit_file`, after the guards that precede that use. -/
def call_edit_file (fs : FS) (vp vo vn : Value) : OpResult EditOk × FS :=
  match vp, vo, vn with
  | .vstr p, .vstr o, .vstr n => edit_file fs p o n
  | .vstr p, _, _ =>
    match normalize_path fs p with
    | .error e => (.error (editFailMsg p e), fs)
    | .ok path =>
      if !(fs.pexists path) then (.error (notExistMsg p), fs)
      else (.error (editFailMsg p (chars "TypeError")), fs)
  | _, _, _ => (.error (editFailMsg (pyStr vp) (chars "TypeError")), fs)

/-- `list_directory` at the dynamic level. -/
def call_list_directory (fs : FS) (v : Value) : OpResult ListOk :=
  match v with
  | .vstr s => list_directory fs s
  | _ => .error (listFailMsg (pyStr v) (chars "TypeError"))

/-- Iterating the `file_paths` argument: Python iterates lists by element,
strings by character and dicts by key. -/
def iterValue : Value → List Value
  | .vlist l => l
  | .vstr s => s.map (fun c => .vstr [c])
  | .vdict d => d.map (fun kv => .vstr kv.1)

/-- One result envelope per tool, plus the dispatcher-level error dict. -/
inductive ToolRes where
  | readR (r : OpResult ReadOk)
  | readMulti (r : BatchRead)
  | createR (r : OpResult CreateOk)
  | createMulti (r : BatchCreate)
  | editR (r : OpResult EditOk)
  | listR (r : OpResult ListOk)
  | errorR (msg : Str)

/-- Keys of `TOOL_FUNCTIONS` (src/main.py lines 380-387). -/
def toolNames : List Str :=
  [chars "read_file", chars "read_multiple_files", chars "create_file",
   chars "create_multiple_files", chars "edit_file", chars "list_directory"]

/-- The Python function dispatched to (for the binding error message). -/
def funcName (name : Str) : Str :=
  if name == chars "read_file" then chars "read_local_file" else name

/-- Parameters without a default in the Python signature of each tool
function. -/
def requiredArgs (name : Str) : List Str :=
  if name == chars "read_file" then [chars "file_path"]
  else if name == chars "read_multiple_files" then [chars "file_paths"]
  else if name == chars "create_file" then [chars "file_path", chars "content"]
  else if name == chars "create_multiple_files" then [chars "files"]
  else if name == chars "edit_file" then
    [chars "file_path", chars "original_snippet", chars "new_snippet"]
  else []

/-- All keyword parameters each tool function accepts. -/
def allowedArgs (name : Str) : List Str :=
  if name == chars "list_directory" then [chars "dir_path"] else requiredArgs name

/-- Keyword binding of `tool_function(**parameters)`: `TypeError` when a
required parameter is missing or an unexpected keyword is passed.  This is
raised at the call site, before the tool function body runs. -/
def bindErr? (name : Str) (ps : Params) : Option Str :=
  match (requiredArgs name).find? (fun r => (ps.lookup r).isNone) with
  | some r =>
    some (funcName name ++ chars "() missing required argument: " ++ r)
  | none =>
    (ps.find? (fun kv => !((allowedArgs name).contains kv.1))).map
      (fun kv => funcName name ++ chars "() got an unexpected keyword argument: " ++ kv.1)

/-- The `result = tool_function(**parameters)` step of `execute_tool`
(src/main.py lines 472-479): bind the keyword arguments, then run the tool
function.  An `Except.error` is a Python exception escaping to the
dispatcher, carrying the filesystem state at the raise. -/
def rawDispatch (fs : FS) (name : Str) (ps : Params) : Except (Str × FS) (ToolRes × FS) :=
  match bindErr? name ps with
  | some m => .error (m, fs)
  | none =>
    if name == chars "read_file" then
      .ok (.readR (call_read_file fs ((ps.lookup (chars "file_path")).getD (.vstr []))), fs)
    else if name == chars "read_multiple_files" then
      .ok (.readMulti (read_multiple_files fs
        (iterValue ((ps.lookup (chars "file_paths")).getD (.vstr [])))), fs)
    else if name == chars "create_file" then
      let (r, fs1) := call_create_file fs
        ((ps.lookup (chars "file_path")).getD (.vstr []))
        ((ps.lookup (chars "content")).getD (.vstr []))
      .ok (.createR r, fs1)
    else if name == chars "create_multiple_files" then
      (create_multiple_files fs
        (iterValue ((ps.lookup (chars "files")).getD (.vstr [])))).map
        (fun bfs => (.createMulti bfs.1, bfs.2))
    else if name == chars "edit_file" then
      let (r, fs1) := call_edit_file fs
        ((ps.lookup (chars "file_path")).getD (.vstr []))
        ((ps.lookup (chars "original_snippet")).getD (.vstr []))
        ((ps.lookup (chars "new_snippet")).getD (.vstr []))
      .ok (.editR r, fs1)
    else if name == chars "list_directory" then
      .ok (.listR (call_list_directory fs
        ((ps.lookup (chars "dir_path")).getD (.vstr (chars ".")))), fs)
    else
      .error (chars "KeyError: " ++ name, fs)

/-- src/main.py lines 466-483 (`GeminiEngineer.execute_tool`): unknown tool
names get an error dict; everything raised below is caught and wrapped as
`Tool execution failed: ...`. -/
def execute_tool (fs : FS) (tool_name : Str) (parameters : Params) : ToolRes × FS :=
  if !(toolNames.contains tool_name) then
    (.errorR (chars "Unknown tool: " ++ tool_name), fs)
  else
    match rawDispatch fs tool_name parameters with
    | .ok rfs => rfs
    | .error efs => (.errorR (chars "Tool execution failed: " ++ efs.1), efs.2)

inductive PShape where
  | pstr
  | parr
deriving DecidableEq, Repr

structure ToolSpec where
  name : Str
  props : List (Str × PShape)
  required : List Str

/-- src/main.py lines 272-377 (`TOOLS`): the declared parameter schemas
(names, JSON types, required lists), abstracted to the string/array shape
distinction the schemas draw. -/
def TOOLS : List ToolSpec :=
  [{ name := chars "read_file", props := [(chars "file_path", .pstr)],
     required := [chars "file_path"] },
   { name := chars "read_multiple_files", props := [(chars "file_paths", .parr)],
     required := [chars "file_paths"] },
   { name := chars "create_file",
     props := [(chars "file_path", .pstr), (chars "content", .pstr)],
     required := [chars "file_path", chars "content"] },
   { name := chars "create_multiple_files", props := [(chars "files", .parr)],
     required := [chars "files"] },
   { name := chars "edit_file",
     props := [(chars "file_path", .pstr), (chars "original_snippet", .pstr),
               (chars "new_snippet", .pstr)],
     required := [chars "file_path", chars "original_snippet", chars "new_snippet"] },
   { name := chars "list_directory", props := [(chars "dir_path", .pstr)],
     required := [] }]

def shapeOk : PShape → Value → Bool
  | .pstr, .vstr _ => true
  | .parr, .vlist _ => true
  | _, _ => false

/-- A parameter bag matches a tool schema: all required parameters present,
every provided parameter declared and of the declared shape. -/
def paramsValid (ts : ToolSpec) (ps : Params) : Bool :=
  ts.required.all (fun r => (ps.lookup r).isSome) &&
    ps.all (fun kv =>
      match ts.props.lookup kv.1 with
      | some sh => shapeOk sh kv.2
      | none => false)

inductive SpecInvoke where
  | unknownTool
  | invalidParameters
  | dispatched (r : ToolRes × FS)

/-- Follows the spec wording (section 4.4), for comparison with
`execute_tool`: the dispatcher is said to fail with `InvalidParameters`
when required parameters are absent or of the wrong shape, before any
filesystem access, and to dispatch only valid calls. -/
def invoke_spec (fs : FS) (name : Str) (ps : Params) : SpecInvoke :=
  match TOOLS.find? (fun ts => ts.name == name) with
  | none => .unknownTool
  | some ts =>
    if !(paramsValid ts ps) then .invalidParameters
    else .dispatched (execute_tool fs name ps)

theorem replaceFirst_self (c s : Str) : replaceFirst c s s = c := by
  induction c with
  | nil =>
    unfold replaceFirst
    split
    · next h =>
      have hs : s = [] := List.prefix_nil.mp (List.isPrefixOf_iff_prefix.mp h)
      subst hs
      rfl
    · rfl
  | cons x xs ih =>
    unfold replaceFirst
    split
    · next h =>
      obtain ⟨t, ht⟩ := List.isPrefixOf_iff_prefix.mp h
      rw [← ht, List.drop_left]
    · simpa using ih

theorem containsSub_eq_firstIdx (c s : Str) : containsSub c s = (firstIdx? c s).isSome := by
  induction c with
  | nil =>
    unfold containsSub firstIdx?
    split <;> simp
  | cons x xs ih =>
    unfold containsSub firstIdx?
    split <;> simp [ih]

theorem firstIdx?_isPrefix {c s : Str} {i : Nat} (h : firstIdx? c s = some i) :
    s.isPrefixOf (c.drop i) = true := by
  induction c generalizing i with
  | nil =>
    unfold firstIdx? at h
    split at h
    · next hp => cases h; simpa using hp
    · cases h
  | cons x xs ih =>
    unfold firstIdx? at h
    split at h
    · next hp => cases h; simpa using hp
    · next hp =>
      obtain ⟨j, hj, hji⟩ := Option.map_eq_some'.mp h
      subst hji
      simpa [List.drop_succ_cons] using ih hj

theorem firstIdx?_le_length {c s : Str} {i : Nat} (h : firstIdx? c s = some i) :
    i ≤ c.length := by
  induction c generalizing i with
  | nil =>
    unfold firstIdx? at h
    split at h
    · cases h; exact Nat.le_refl 0
    · cases h
  | cons x xs ih =>
    unfold firstIdx? at h
    split at h
    · cases h; exact Nat.zero_le _
    · next hp =>
      obtain ⟨j, hj, hji⟩ := Option.map_eq_some'.mp h
      subst hji
      simpa using ih hj

theorem firstIdx?_min {c s : Str} {i : Nat} (h : firstIdx? c s = some i) :
    ∀ j, j < i → s.isPrefixOf (c.drop j) = false := by
  induction c generalizing i with
  | nil =>
    unfold firstIdx? at h
    split at h
    · cases h; omega
    · cases h
  | cons x xs ih =>
    unfold firstIdx? at h
    split at h
    · cases h; omega
    · next hp =>
      obtain ⟨k, hk, hki⟩ := Option.map_eq_some'.mp h
      subst hki
      intro j hj
      match j with
      | 0 =>
        simp only [List.drop_zero]
        exact Bool.eq_false_iff.mpr hp
      | j + 1 =>
        rw [List.drop_succ_cons]
        exact ih hk j (by omega)

theorem replaceFirst_firstIdx {c s : Str} {i : Nat} (h : firstIdx? c s = some i) (t : Str) :
    replaceFirst c s t = c.take i ++ t ++ c.drop (i + s.length) := by
  induction c generalizing i with
  | nil =>
    unfold firstIdx? at h
    split at h
    · cases h
      unfold replaceFirst
      split
      · simp
      · next hp =>
        have hs : s = [] := List.prefix_nil.mp (List.isPrefixOf_iff_prefix.mp (by assumption))
        simp_all
    · cases h
  | cons x xs ih =>
    by_cases hp : s.isPrefixOf (x :: xs) = true
    · unfold firstIdx? at h
      rw [if_pos hp] at h
      cases h
      unfold replaceFirst
      rw [if_pos hp]
      simp
    · unfold firstIdx? at h
      rw [if_neg hp] at h
      obtain ⟨j, hj, hji⟩ := Option.map_eq_some'.mp h
      subst hji
      unfold replaceFirst
      rw [if_neg hp]
      show x :: replaceFirst xs s t = _
      have harith : j + 1 + s.length = (j + s.length) + 1 := by omega
      rw [harith, List.drop_succ_cons, List.take_succ_cons, ih hj]
      simp

theorem occursAt_replaceFirst {c s : Str} {i : Nat} (hi : firstIdx? c s = some i) (t : Str)
    {j : Nat} (hj : s.isPrefixOf ((c.drop (i + s.length)).drop j) = true) :
    s.isPrefixOf ((replaceFirst c s t).drop (i + t.length + j)) = true := by
  rw [replaceFirst_firstIdx hi t]
  have hle : i ≤ c.length := firstIdx?_le_length hi
  have hlen : (c.take i ++ t).length = i + t.length := by
    simp [List.length_take, Nat.min_eq_left hle]
  rw [show i + t.length + j = (c.take i ++ t).length + j from by rw [hlen]]
  rw [List.drop_append]
  exact hj

@[simp] theorem FS.setFile_cwd (fs : FS) (p c : Str) : (fs.setFile p c).cwd = fs.cwd := rfl

@[simp] theorem FS.setFile_resolve (fs : FS) (p c : Str) :
    (fs.setFile p c).resolve = fs.resolve := rfl

@[simp] theorem FS.setFile_guessMime (fs : FS) (p c : Str) :
    (fs.setFile p c).guessMime = fs.guessMime := rfl

@[simp] theorem FS.setFile_dirs (fs : FS) (p c : Str) : (fs.setFile p c).dirs = fs.dirs := rfl

@[simp] theorem FS.mkdirParents_cwd (fs : FS) (d : Str) : (fs.mkdirParents d).cwd = fs.cwd := rfl

@[simp] theorem FS.mkdirParents_resolve (fs : FS) (d : Str) :
    (fs.mkdirParents d).resolve = fs.resolve := rfl

@[simp] theorem FS.mkdirParents_guessMime (fs : FS) (d : Str) :
    (fs.mkdirParents d).guessMime = fs.guessMime := rfl

@[simp] theorem FS.mkdirParents_files (fs : FS) (d : Str) :
    (fs.mkdirParents d).files = fs.files := rfl

@[simp] theorem FS.lookupFile_setFile_self (fs : FS) (p c : Str) :
    (fs.setFile p c).lookupFile p = some c := by
  simp [FS.setFile, FS.lookupFile, List.lookup]

@[simp] theorem FS.lookupFile_mkdirParents (fs : FS) (d p : Str) :
    (fs.mkdirParents d).lookupFile p = fs.lookupFile p := rfl

theorem normalize_ok_of_pfx (fs : FS) (p : Str)
    (h : fs.cwd.isPrefixOf (fs.resolve p) = true) :
    normalize_path fs p = .ok (fs.resolve p) := by
  unfold normalize_path
  simp [h]

theorem normalize_err_of_not_pfx (fs : FS) (p : Str)
    (h : fs.cwd.isPrefixOf (fs.resolve p) = false) :
    normalize_path fs p = .error (outsideMsg p) := by
  unfold normalize_path
  simp [h]

theorem tooLarge_ne_binary (p : Str) : tooLargeMsg p ≠ binaryMsg p := by
  intro h
  unfold tooLargeMsg binaryMsg quoted at h
  simp only [List.append_assoc] at h
  have h1 := List.append_cancel_left h
  have h2 := List.append_cancel_left h1
  have h3 := List.append_cancel_left h2
  have h4 := List.append_cancel_left h3
  exact absurd h4 (by decide)

/-- An entry name survives the listing loop: not hidden, not in the ignore
set. -/
def keepName (nm : Str) : Bool := !(['.'].isPrefixOf nm || ignoreNames.contains nm)

/-- The listing loop is a filter of the children followed by the row
constructor. -/
theorem ld_go_eq_filter (fs : FS) (path : Str) (l : List Str) :
    ld_go fs path l = (l.filter keepName).map (entryOf fs path) := by
  induction l with
  | nil => rfl
  | cons nm rest ih =>
    unfold ld_go
    rw [List.filter_cons]
    by_cases h : (['.'].isPrefixOf nm || ignoreNames.contains nm) = true
    · rw [if_pos h, ih]
      have hk : keepName nm = false := by unfold keepName; rw [h]; rfl
      rw [hk]
      simp
    · rw [if_neg h, ih]
      have hk : keepName nm = true := by
        unfold keepName; rw [Bool.eq_false_iff.mpr h]; rfl
      rw [hk]
      simp

theorem rmf_go_cons (fs : FS) (x : Value) (l : List Value) (res : List (Str × ReadOk))
    (errs : List Str) :
    rmf_go fs (x :: l) res errs =
      match call_read_file fs x with
      | .error e => rmf_go fs l res (errs ++ [quoted (pyStr x) ++ chars ": " ++ e])
      | .ok r => rmf_go fs l (res ++ [(pyStr x, r)]) errs := by
  rfl

theorem rmf_go_append (fs : FS) (xs ys : List Value) (res : List (Str × ReadOk))
    (errs : List Str) :
    rmf_go fs (xs ++ ys) res errs =
      rmf_go fs ys (rmf_go fs xs res errs).1 (rmf_go fs xs res errs).2 := by
  induction xs generalizing res errs with
  | nil => rfl
  | cons x xs ih =>
    simp only [List.cons_append, rmf_go_cons]
    cases hc : call_read_file fs x with
    | error e => exact ih _ _
    | ok r => exact ih _ _

theorem rmf_go_shift (fs : FS) (items : List Value) (res : List (Str × ReadOk))
    (errs : List Str) :
    rmf_go fs items res errs =
      (res ++ (rmf_go fs items [] []).1, errs ++ (rmf_go fs items [] []).2) := by
  induction items generalizing res errs with
  | nil => simp [rmf_go]
  | cons x xs ih =>
    simp only [rmf_go_cons]
    cases hc : call_read_file fs x with
    | error e =>
      show rmf_go fs xs res (errs ++ [quoted (pyStr x) ++ chars ": " ++ e]) =
        (res ++ (rmf_go fs xs [] ([] ++ [quoted (pyStr x) ++ chars ": " ++ e])).1,
         errs ++ (rmf_go fs xs [] ([] ++ [quoted (pyStr x) ++ chars ": " ++ e])).2)
      rw [ih res (errs ++ [quoted (pyStr x) ++ chars ": " ++ e]),
          ih [] ([] ++ [quoted (pyStr x) ++ chars ": " ++ e])]
      simp
    | ok r =>
      show rmf_go fs xs (res ++ [(pyStr x, r)]) errs =
        (res ++ (rmf_go fs xs ([] ++ [(pyStr x, r)]) []).1,
         errs ++ (rmf_go fs xs ([] ++ [(pyStr x, r)]) []).2)
      rw [ih (res ++ [(pyStr x, r)]) errs, ih ([] ++ [(pyStr x, r)]) []]
      simp

theorem cmf_go_success {fs : FS} {items : List Value} {res : List (Str × CreateOk)}
    {errs : List Str} {b : BatchCreate} {fs1 : FS}
    (h : cmf_go fs items res errs = .ok (b, fs1)) : b.success = b.errors.isEmpty := by
  induction items generalizing fs res errs with
  | nil =>
    unfold cmf_go at h
    cases h
    rfl
  | cons item rest ih =>
    unfold cmf_go at h
    split at h
    · exact ih h
    · split at h
      · cases h
      · split at h
        · cases h
        · split at h
          · exact ih h
          · exact ih h

theorem cmf_go_cons (fs : FS) (item : Value) (rest : List Value)
    (res : List (Str × CreateOk)) (errs : List Str) :
    cmf_go fs (item :: rest) res errs =
      if !(containsKey item (chars "path")) || !(containsKey item (chars "content")) then
        cmf_go fs rest res (errs ++ [malformedMsg])
      else
        match getItem item (chars "path") with
        | .error e => .error (e, fs)
        | .ok vp =>
          match getItem item (chars "content") with
          | .error e => .error (e, fs)
          | .ok vc =>
            match call_create_file fs vp vc with
            | (.error e, fs1) =>
              cmf_go fs1 rest res (errs ++ [quoted (pyStr vp) ++ chars ": " ++ e])
            | (.ok r, fs1) => cmf_go fs1 rest (res ++ [(pyStr vp, r)]) errs := by
  rfl

theorem cmf_go_append (fs : FS) (xs ys : List Value) (res : List (Str × CreateOk))
    (errs : List Str) :
    cmf_go fs (xs ++ ys) res errs =
      match cmf_go fs xs res errs with
      | .error efs => .error efs
      | .ok bfs => cmf_go bfs.2 ys bfs.1.files bfs.1.errors := by
  induction xs generalizing fs res errs with
  | nil => rfl
  | cons item rest ih =>
    simp only [List.cons_append, cmf_go_cons]
    split
    · exact ih fs res (errs ++ [malformedMsg])
    · cases hp : getItem item (chars "path") with
      | error e => rfl
      | ok vp =>
        dsimp only
        cases hc : getItem item (chars "content") with
        | error e => rfl
        | ok vc =>
          dsimp only
          cases hcr : call_create_file fs vp vc with
          | mk r fs1 =>
            cases r with
            | error e => exact ih fs1 res (errs ++ [quoted (pyStr vp) ++ chars ": " ++ e])
            | ok rr => exact ih fs1 (res ++ [(pyStr vp, rr)]) errs

theorem cmf_go_shift (fs : FS) (items : List Value) (res : List (Str × CreateOk))
    (errs : List Str) :
    cmf_go fs items res errs =
      (cmf_go fs items [] []).map
        (fun bfs =>
          ({ success := (errs ++ bfs.1.errors).isEmpty,
             files := res ++ bfs.1.files,
             errors := errs ++ bfs.1.errors }, bfs.2)) := by
  induction items generalizing fs res errs with
  | nil => simp [cmf_go, Except.map]
  | cons item rest ih =>
    simp only [cmf_go_cons]
    split
    · rw [ih fs res (errs ++ [malformedMsg]), ih fs [] ([] ++ [malformedMsg])]
      cases hr : cmf_go fs rest [] [] with
      | error efs => rfl
      | ok bfs => simp [Except.map]
    · cases hp : getItem item (chars "path") with
      | error e => rfl
      | ok vp =>
        dsimp only
        cases hc : getItem item (chars "content") with
        | error e => rfl
        | ok vc =>
          dsimp only
          cases hcr : call_create_file fs vp vc with
          | mk r fs1 =>
            cases r with
            | error e =>
              dsimp only
              rw [ih fs1 res (errs ++ [quoted (pyStr vp) ++ chars ": " ++ e]),
                  ih fs1 [] ([] ++ [quoted (pyStr vp) ++ chars ": " ++ e])]
              cases hr : cmf_go fs1 rest [] [] with
              | error efs => rfl
              | ok bfs => simp [Except.map]
            | ok rr =>
              dsimp only
              rw [ih fs1 (res ++ [(pyStr vp, rr)]) errs, ih fs1 ([] ++ [(pyStr vp, rr)]) []]
              cases hr : cmf_go fs1 rest [] [] with
              | error efs => rfl
              | ok bfs => simp [Except.map]

theorem cmf_go_dicts_ok (fs : FS) (ds : List (List (Str × Value)))
    (res : List (Str × CreateOk)) (errs : List Str) :
    ∃ b fs1, cmf_go fs (ds.map Value.vdict) res errs = .ok (b, fs1) := by
  induction ds generalizing fs res errs with
  | nil => exact ⟨_, _, rfl⟩
  | cons d rest ih =>
    simp only [List.map_cons, cmf_go_cons]
    split
    · exact ih fs res (errs ++ [malformedMsg])
    · next h =>
      have h' := Bool.eq_false_iff.mpr h
      rw [Bool.or_eq_false_iff] at h'
      obtain ⟨ha, hb⟩ := h'
      rw [Bool.not_eq_false'] at ha hb
      simp only [containsKey] at ha hb
      obtain ⟨vp, hvp⟩ := Option.isSome_iff_exists.mp ha
      obtain ⟨vc, hvc⟩ := Option.isSome_iff_exists.mp hb
      simp only [getItem, hvp, hvc]
      cases hcr : call_create_file fs vp vc with
      | mk r fs1 =>
        cases r with
        | error e => exact ih fs1 res (errs ++ [quoted (pyStr vp) ++ chars ": " ++ e])
        | ok rr => exact ih fs1 (res ++ [(pyStr vp, rr)]) errs

theorem create_file_eq_of (fs : FS) (p c : Str)
    (hcw : fs.cwd.isPrefixOf (fs.resolve p) = true)
    (hblk : fs.files.any (fun kv => isAncestorOrSelf kv.1 (parentDir (fs.resolve p))) = false)
    (hdir : (fs.mkdirParents (parentDir (fs.resolve p))).isDir (fs.resolve p) = false) :
    create_file fs p c =
      (.ok { file_path := fs.resolve p, size := c.length, message := createdMsg p },
       (fs.mkdirParents (parentDir (fs.resolve p))).setFile (fs.resolve p) c) := by
  unfold create_file normalize_path
  simp [hcw, hblk, hdir]

theorem create_file_ok_conds {fs : FS} {p c : Str} {r : CreateOk}
    (h : (create_file fs p c).1 = .ok r) :
    fs.cwd.isPrefixOf (fs.resolve p) = true ∧
    fs.files.any (fun kv => isAncestorOrSelf kv.1 (parentDir (fs.resolve p))) = false ∧
    (fs.mkdirParents (parentDir (fs.resolve p))).isDir (fs.resolve p) = false := by
  by_cases hcw : fs.cwd.isPrefixOf (fs.resolve p) = true
  · by_cases hblk : fs.files.any (fun kv => isAncestorOrSelf kv.1 (parentDir (fs.resolve p))) = true
    · exfalso
      simp [create_file, normalize_path, hcw, hblk] at h
    · have hblk' := Bool.eq_false_iff.mpr hblk
      by_cases hdir : (fs.mkdirParents (parentDir (fs.resolve p))).isDir (fs.resolve p) = true
      · exfalso
        simp [create_file, normalize_path, hcw, hblk', hdir] at h
      · exact ⟨hcw, hblk', Bool.eq_false_iff.mpr hdir⟩
  · exfalso
    simp [create_file, normalize_path, Bool.eq_false_iff.mpr hcw] at h

/-- The containment notion of the specification: the resolved form is the
sandbox root or a path-descendant of it. -/
def isWithin (root p : Str) : Prop := p = root ∨ (root ++ ['/']).isPrefixOf p = true

theorem within_prefixOf {root p : Str} (h : isWithin root p) : root.isPrefixOf p = true := by
  rcases h with h | h
  · subst h
    exact List.isPrefixOf_iff_prefix.mpr (List.prefix_refl _)
  · exact List.isPrefixOf_iff_prefix.mpr
      (List.IsPrefix.trans (List.prefix_append root ['/']) (List.isPrefixOf_iff_prefix.mp h))

theorem execute_tool_of_raw_error {fs : FS} {name : Str} {ps : Params} {e : Str} {fs1 : FS}
    (hreg : toolNames.contains name = true)
    (h : rawDispatch fs name ps = .error (e, fs1)) :
    execute_tool fs name ps = (.errorR (chars "Tool execution failed: " ++ e), fs1) := by
  unfold execute_tool
  rw [hreg, h]
  simp

theorem containsSub_nil (c : Str) : containsSub c [] = true := by
  cases c <;> rfl

theorem replaceFirst_nil (c t : Str) : replaceFirst c [] t = t ++ c := by
  cases c <;> rfl

instance (root p : Str) : Decidable (isWithin root p) := by
  unfold isWithin
  infer_instance

/-- A small concrete host shared by witnesses: root `/ws`, file `/ws/a.txt`
holding `hi`, no symlinks (already-canonical paths resolve to themselves),
empty mimetypes table. -/
def fsA : FS :=
  { cwd := chars "/ws", resolve := fun p => p, guessMime := fun _ => none,
    files := [(chars "/ws/a.txt", chars "hi")], dirs := [chars "/ws"] }

/-- C1 counterexample: the sibling path `/ws2/x` resolves outside the
sandbox root `/ws` — it is neither the root nor a descendant of it — yet
`normalize_path` accepts it, because the containment check is a plain
string-prefix test and `/ws` is a string prefix of `/ws2/x`. -/
theorem c1_sandbox_counterexample :
    normalize_path fsA (chars "/ws2/x") = .ok (chars "/ws2/x") ∧
    ¬ isWithin (chars "/ws") (chars "/ws2/x") := by
  exact ⟨rfl, by decide⟩

/-- C1 (amended): `normalize_path` accepts a candidate iff the string form
of its resolved path starts with the string form of the sandbox root.
Every candidate whose resolved form is the root or a descendant of it is
accepted and returned prefixed by the root, and every candidate whose
resolved form does not extend the root as a string fails with the
out-of-sandbox error; but resolved paths that merely extend the root
string without a separator (sibling directories such as `/ws2`) are also
accepted. -/
theorem c1_sandbox_containment (fs : FS) (p : Str) :
    (isWithin fs.cwd (fs.resolve p) → normalize_path fs p = .ok (fs.resolve p)) ∧
    (normalize_path fs p = .ok (fs.resolve p) ↔ fs.cwd.isPrefixOf (fs.resolve p) = true) ∧
    (fs.cwd.isPrefixOf (fs.resolve p) = false →
      normalize_path fs p = .error (outsideMsg p)) := by
  refine ⟨?_, ⟨?_, normalize_ok_of_pfx fs p⟩, normalize_err_of_not_pfx fs p⟩
  · intro h
    exact normalize_ok_of_pfx fs p (within_prefixOf h)
  · intro h
    by_cases hc : fs.cwd.isPrefixOf (fs.resolve p) = true
    · exact hc
    · rw [normalize_err_of_not_pfx fs p (Bool.eq_false_iff.mpr hc)] at h
      cases h

theorem c1_sandbox_containment_witness :
    isWithin fsA.cwd (fsA.resolve (chars "/ws/a.txt")) ∧
    normalize_path fsA (chars "/ws/a.txt") = .ok (chars "/ws/a.txt") := by
  refine ⟨by decide, ?_⟩
  exact (c1_sandbox_containment fsA (chars "/ws/a.txt")).1 (by decide)

/-- C2: the dispatcher is total.  A tool name outside the registry yields
the `Unknown tool` failure dict with the filesystem untouched, and any
exception escaping the dispatched call (binding faults, faults raised
inside `create_multiple_files`) is caught and normalized into the
`Tool execution failed` failure dict carrying the exception text and the
filesystem state at the raise; no case of `execute_tool` raises. -/
theorem c2_dispatcher_totality (fs : FS) (name : Str) (ps : Params) :
    (toolNames.contains name = false →
      execute_tool fs name ps = (.errorR (chars "Unknown tool: " ++ name), fs)) ∧
    (toolNames.contains name = true →
      ∀ e fs1, rawDispatch fs name ps = .error (e, fs1) →
        execute_tool fs name ps =
          (.errorR (chars "Tool execution failed: " ++ e), fs1)) := by
  constructor
  · intro h
    unfold execute_tool
    rw [h]
    simp
  · intro hreg e fs1 h
    exact execute_tool_of_raw_error hreg h

theorem c2_dispatcher_totality_witness :
    toolNames.contains (chars "delete_file") = false ∧
    execute_tool fsA (chars "delete_file") [] =
      (.errorR (chars "Unknown tool: " ++ chars "delete_file"), fsA) ∧
    toolNames.contains (chars "read_file") = true ∧
    rawDispatch fsA (chars "read_file") [] =
      .error (chars "read_local_file" ++ chars "() missing required argument: " ++
        chars "file_path", fsA) ∧
    execute_tool fsA (chars "read_file") [] =
      (.errorR (chars "Tool execution failed: " ++ (chars "read_local_file" ++
        chars "() missing required argument: " ++ chars "file_path")), fsA) := by
  refine ⟨by decide, ?_, by decide, rfl, ?_⟩
  · exact (c2_dispatcher_totality fsA (chars "delete_file") []).1 (by decide)
  · exact (c2_dispatcher_totality fsA (chars "read_file") []).2 (by decide) _ _ rfl

/-- C6 counterexample: the dispatcher performs no parameter pre-validation.
With `file_path` bound to a list (wrong shape), the call is dispatched into
`read_local_file` — the result is the read operation failure dict (the
`readR` envelope produced inside the file layer after `Path()` raised in
its try block), not a distinct `InvalidParameters` failure produced before
any filesystem access; the spec-faithful validator `invoke_spec` rejects
both inputs as `invalidParameters`.  With `file_path` missing entirely, the
binding `TypeError` is reported through the generic
`Tool execution failed` catch-all. -/
theorem c6_prevalidation_counterexample :
    invoke_spec fsA (chars "read_file") [(chars "file_path", .vlist [])] =
      .invalidParameters ∧
    execute_tool fsA (chars "read_file") [(chars "file_path", .vlist [])] =
      (.readR (.error (readFailMsg (chars "[...]") (chars "TypeError"))), fsA) ∧
    invoke_spec fsA (chars "read_file") [] = .invalidParameters ∧
    execute_tool fsA (chars "read_file") [] =
      (.errorR (chars "Tool execution failed: " ++ (chars "read_local_file" ++
        chars "() missing required argument: " ++ chars "file_path")), fsA) := by
  refine ⟨rfl, rfl, rfl, rfl⟩

/-- C6 (amended): `execute_tool` does not pre-validate parameters against
the declared schemas.  A call to `read_file` whose required `file_path`
parameter is absent fails only at keyword binding; the raised `TypeError`
is caught by the dispatcher catch-all and reported as the generic
`Tool execution failed` failure (the filesystem is untouched because the
fault precedes the function body).  A call whose `file_path` is present but
of the wrong shape (a list where a string is expected) is dispatched into
the read operation, which reaches `Path()` and reports its own
`Failed to read` failure — so wrong-shaped calls do reach the
path-resolution layer. -/
theorem c6_no_prevalidation (fs : FS) (ps : Params) :
    ((ps.lookup (chars "file_path")).isNone = true →
      execute_tool fs (chars "read_file") ps =
        (.errorR (chars "Tool execution failed: " ++ (chars "read_local_file" ++
          chars "() missing required argument: " ++ chars "file_path")), fs)) ∧
    (∀ l, execute_tool fs (chars "read_file") [(chars "file_path", .vlist l)] =
      (.readR (.error (readFailMsg (chars "[...]") (chars "TypeError"))), fs)) := by
  constructor
  · intro h
    have hraw : rawDispatch fs (chars "read_file") ps =
        .error (chars "read_local_file" ++ chars "() missing required argument: " ++
          chars "file_path", fs) := by
      unfold rawDispatch
      have hb : bindErr? (chars "read_file") ps =
          some (chars "read_local_file" ++ chars "() missing required argument: " ++
            chars "file_path") := by
        unfold bindErr?
        have hreq : requiredArgs (chars "read_file") = [chars "file_path"] := rfl
        have hfn : funcName (chars "read_file") = chars "read_local_file" := rfl
        have hfind : List.find? (fun r => (List.lookup r ps).isNone) [chars "file_path"] =
            some (chars "file_path") := by
          simp [List.find?_cons, h]
        rw [hreq, hfn, hfind]
      rw [hb]
    exact execute_tool_of_raw_error rfl hraw
  · intro l
    rfl

theorem c6_no_prevalidation_witness :
    (([(chars "x", Value.vstr [])] : Params).lookup (chars "file_path")).isNone = true ∧
    execute_tool fsA (chars "read_file") [(chars "x", Value.vstr [])] =
      (.errorR (chars "Tool execution failed: " ++ (chars "read_local_file" ++
        chars "() missing required argument: " ++ chars "file_path")), fsA) ∧
    execute_tool fsA (chars "read_file") [(chars "file_path", .vlist [.vstr (chars "x")])] =
      (.readR (.error (readFailMsg (chars "[...]") (chars "TypeError"))), fsA) := by
  refine ⟨rfl, ?_, ?_⟩
  · exact (c6_no_prevalidation fsA [(chars "x", Value.vstr [])]).1 rfl
  · exact (c6_no_prevalidation fsA []).2 [.vstr (chars "x")]

/-- C3 counterexample: the round trip fails for NUL-bearing content.  The
one-byte content consisting of a NUL is within the size ceiling and the
path `/ws/f` (extensionless, unknown MIME) is inside the sandbox;
`create_file` succeeds, but the subsequent `read_local_file` classifies the
file as binary and fails instead of returning the content. -/
theorem c3_round_trip_counterexample :
    ([nulChar] : Str).length ≤ MAX_FILE_SIZE ∧
    isWithin fsA.cwd (fsA.resolve (chars "/ws/f")) ∧
    (create_file fsA (chars "/ws/f") [nulChar]).1 =
      .ok { file_path := chars "/ws/f", size := 1, message := createdMsg (chars "/ws/f") } ∧
    read_local_file (create_file fsA (chars "/ws/f") [nulChar]).2 (chars "/ws/f") =
      .error (binaryMsg (chars "/ws/f")) := by
  refine ⟨by decide, by decide, by decide, by decide⟩

/-- C3 (amended): `create_file` followed by `read_local_file` on the same
path returns exactly the written content, provided the create succeeded,
the content does not exceed the 1 MiB ceiling, and the file is classified
text — its extension is on the allowlist, or its MIME guess is textual, or
its first 1024 bytes contain no NUL.  (The unamended claim fails for
NUL-bearing content on a non-allowlisted name, which the read rejects as
binary.) -/
theorem mimeIsText_setFile (fs : FS) (p c q : Str) :
    mimeIsText (fs.setFile p c) q = mimeIsText fs q := rfl

theorem mimeIsText_mkdirParents (fs : FS) (d q : Str) :
    mimeIsText (fs.mkdirParents d) q = mimeIsText fs q := rfl

theorem c3_round_trip (fs : FS) (p c : Str) (r : CreateOk)
    (hok : (create_file fs p c).1 = .ok r)
    (hsize : c.length ≤ MAX_FILE_SIZE)
    (htext : textExts.contains (lowerStr (suffixOf (fs.resolve p))) = true ∨
             mimeIsText fs (fs.resolve p) = true ∨
             (c.take 1024).contains nulChar = false) :
    read_local_file (create_file fs p c).2 p =
      .ok { file_path := fs.resolve p, content := c, size := c.length } := by
  obtain ⟨hcw, hblk, hdir⟩ := create_file_ok_conds hok
  rw [create_file_eq_of fs p c hcw hblk hdir]
  set fs2 := (fs.mkdirParents (parentDir (fs.resolve p))).setFile (fs.resolve p) c with hfs2
  have hlk : fs2.lookupFile (fs.resolve p) = some c := by
    rw [hfs2]
    simp
  have hnorm : normalize_path fs2 p = .ok (fs.resolve p) := by
    rw [hfs2]
    unfold normalize_path
    simp [hcw]
  have hex : fs2.pexists (fs.resolve p) = true := by
    simp [FS.pexists, FS.isFile, hlk]
  have htxt : is_text_file fs2 (fs.resolve p) = true := by
    unfold is_text_file
    rcases htext with h | h | h
    · simp
      exact Or.inl (by simpa using h)
    · rw [hfs2]
      simp [mimeIsText_setFile, mimeIsText_mkdirParents, h]
    · have hbin : is_binary_file fs2 (fs.resolve p) = false := by
        unfold is_binary_file
        rw [hlk]
        simpa using h
      simp [hbin]
  have hns : ¬ (c.length > MAX_FILE_SIZE) := by omega
  unfold read_local_file
  rw [hnorm]
  simp [hex, hlk, htxt, hns]

theorem c3_round_trip_witness :
    (create_file fsA (chars "/ws/b.txt") (chars "hi")).1 =
      .ok { file_path := chars "/ws/b.txt", size := 2,
            message := createdMsg (chars "/ws/b.txt") } ∧
    (chars "hi").length ≤ MAX_FILE_SIZE ∧
    textExts.contains (lowerStr (suffixOf (chars "/ws/b.txt"))) = true ∧
    read_local_file (create_file fsA (chars "/ws/b.txt") (chars "hi")).2 (chars "/ws/b.txt") =
      .ok { file_path := chars "/ws/b.txt", content := chars "hi", size := 2 } := by
  refine ⟨by decide, by decide, by decide, ?_⟩
  exact c3_round_trip fsA (chars "/ws/b.txt") (chars "hi")
    { file_path := chars "/ws/b.txt", size := 2, message := createdMsg (chars "/ws/b.txt") }
    (by decide) (by decide) (Or.inl (by decide))

/-- C4: first-occurrence edit.  For an existing file whose content holds
the snippet at first position `i` and again at a later, disjoint position
(offset `j` inside the tail after the first match — occurrences counted as
Python `str.count` scans them):
replacing the snippet by itself rewrites the file byte-identically;
replacing it by `t` rewrites only the first occurrence — the new content is
the untouched prefix, then `t`, then the untouched tail, so the later
occurrence survives at position `i + t.length + j` — and no position
before `i` ever matched, so it is indeed the first occurrence that was
replaced. -/
theorem c4_first_occurrence_edit (fs : FS) (p s t c : Str) (i j : Nat)
    (hcw : fs.cwd.isPrefixOf (fs.resolve p) = true)
    (hf : fs.lookupFile (fs.resolve p) = some c)
    (hi : firstIdx? c s = some i)
    (hj : firstIdx? (c.drop (i + s.length)) s = some j) :
    ((edit_file fs p s s).1 =
       .ok { file_path := fs.resolve p, message := editedMsg p,
             changes := { original_length := c.length, new_length := c.length,
                          diff := 0 } } ∧
     (edit_file fs p s s).2.lookupFile (fs.resolve p) = some c) ∧
    ((edit_file fs p s t).2.lookupFile (fs.resolve p) =
       some (c.take i ++ t ++ c.drop (i + s.length)) ∧
     occursAt (c.take i ++ t ++ c.drop (i + s.length)) s (i + t.length + j) ∧
     (∀ k, k < i → ¬ occursAt c s k)) := by
  have hcon : containsSub c s = true := by
    rw [containsSub_eq_firstIdx, hi]
    rfl
  have hex : fs.pexists (fs.resolve p) = true := by
    simp [FS.pexists, FS.isFile, hf]
  have hedit : ∀ u, edit_file fs p s u =
      (.ok { file_path := fs.resolve p, message := editedMsg p,
             changes := { original_length := c.length,
                          new_length := (replaceFirst c s u).length,
                          diff := ((replaceFirst c s u).length : Int) - (c.length : Int) } },
       fs.setFile (fs.resolve p) (replaceFirst c s u)) := by
    intro u
    unfold edit_file
    rw [normalize_ok_of_pfx fs p hcw]
    simp [hex, hf, hcon]
  refine ⟨⟨?_, ?_⟩, ?_, ?_, ?_⟩
  · rw [hedit s, replaceFirst_self]
    simp
  · rw [hedit s, replaceFirst_self]
    simp
  · rw [hedit t, replaceFirst_firstIdx hi t]
    simp
  · have hocc := occursAt_replaceFirst hi t (firstIdx?_isPrefix hj)
    rw [replaceFirst_firstIdx hi t] at hocc
    exact hocc
  · intro k hk
    unfold occursAt
    rw [firstIdx?_min hi k hk]
    simp

/-- A host holding `/ws/t.txt` with content `abcabc`: the snippet `abc`
occurs twice, disjointly. -/
def fsE : FS :=
  { cwd := chars "/ws", resolve := fun p => p, guessMime := fun _ => none,
    files := [(chars "/ws/t.txt", chars "abcabc")], dirs := [chars "/ws"] }

theorem c4_first_occurrence_edit_witness :
    fsE.lookupFile (chars "/ws/t.txt") = some (chars "abcabc") ∧
    firstIdx? (chars "abcabc") (chars "abc") = some 0 ∧
    firstIdx? ((chars "abcabc").drop (0 + (chars "abc").length)) (chars "abc") = some 0 ∧
    (edit_file fsE (chars "/ws/t.txt") (chars "abc") (chars "abc")).2.lookupFile
      (chars "/ws/t.txt") = some (chars "abcabc") ∧
    (edit_file fsE (chars "/ws/t.txt") (chars "abc") (chars "XY")).2.lookupFile
      (chars "/ws/t.txt") =
      some ((chars "abcabc").take 0 ++ chars "XY" ++
        (chars "abcabc").drop (0 + (chars "abc").length)) ∧
    occursAt ((chars "abcabc").take 0 ++ chars "XY" ++
      (chars "abcabc").drop (0 + (chars "abc").length)) (chars "abc")
      (0 + (chars "XY").length + 0) := by
  refine ⟨rfl, by decide, by decide, ?_, ?_, ?_⟩
  · exact (c4_first_occurrence_edit fsE (chars "/ws/t.txt") (chars "abc") (chars "XY")
      (chars "abcabc") 0 0 (by decide) rfl (by decide) (by decide)).1.2
  · exact (c4_first_occurrence_edit fsE (chars "/ws/t.txt") (chars "abc") (chars "XY")
      (chars "abcabc") 0 0 (by decide) rfl (by decide) (by decide)).2.1
  · exact (c4_first_occurrence_edit fsE (chars "/ws/t.txt") (chars "abc") (chars "XY")
      (chars "abcabc") 0 0 (by decide) rfl (by decide) (by decide)).2.2.1

/-- C10: the empty snippet is a substring of every content, so
`edit_file p "" t` never fails with the snippet-not-found error; Python
`str.replace("", t, 1)` inserts `t` at the front, so the resulting file
content is exactly `t` prepended to the previous content. -/
theorem c10_empty_snippet (fs : FS) (p t c : Str)
    (hcw : fs.cwd.isPrefixOf (fs.resolve p) = true)
    (hf : fs.lookupFile (fs.resolve p) = some c) :
    (edit_file fs p [] t).1 =
      .ok { file_path := fs.resolve p, message := editedMsg p,
            changes := { original_length := c.length, new_length := (t ++ c).length,
                         diff := ((t ++ c).length : Int) - (c.length : Int) } } ∧
    (edit_file fs p [] t).2.lookupFile (fs.resolve p) = some (t ++ c) ∧
    (edit_file fs p [] t).1 ≠ .error (snippetMsg p) := by
  have hex : fs.pexists (fs.resolve p) = true := by
    simp [FS.pexists, FS.isFile, hf]
  have hedit : edit_file fs p [] t =
      (.ok { file_path := fs.resolve p, message := editedMsg p,
             changes := { original_length := c.length, new_length := (t ++ c).length,
                          diff := ((t ++ c).length : Int) - (c.length : Int) } },
       fs.setFile (fs.resolve p) (t ++ c)) := by
    unfold edit_file
    rw [normalize_ok_of_pfx fs p hcw]
    simp [hex, hf, containsSub_nil, replaceFirst_nil]
  refine ⟨?_, ?_, ?_⟩
  · rw [hedit]
  · rw [hedit]
    simp
  · rw [hedit]
    simp

theorem c10_empty_snippet_witness :
    fsA.lookupFile (chars "/ws/a.txt") = some (chars "hi") ∧
    (edit_file fsA (chars "/ws/a.txt") [] (chars "X")).1 ≠
      .error (snippetMsg (chars "/ws/a.txt")) ∧
    (edit_file fsA (chars "/ws/a.txt") [] (chars "X")).2.lookupFile (chars "/ws/a.txt") =
      some (chars "X" ++ chars "hi") := by
  refine ⟨rfl, ?_, ?_⟩
  · exact (c10_empty_snippet fsA (chars "/ws/a.txt") (chars "X") (chars "hi")
      (by decide) rfl).2.2
  · exact (c10_empty_snippet fsA (chars "/ws/a.txt") (chars "X") (chars "hi")
      (by decide) rfl).2.1

theorem isEmpty_append_list {α : Type} (l1 l2 : List α) :
    (l1 ++ l2).isEmpty = (l1.isEmpty && l2.isEmpty) := by
  cases l1 <;> rfl

/-- C5: batch isolation.  Over dict-shaped entries (the shape the schema
declares), `create_multiple_files` never aborts: it always returns a batch;
its aggregate `success` flag is true iff its recorded error list is empty;
a malformed entry (missing `path` or `content` key) is recorded as exactly
one item failure, leaving the filesystem untouched and the remaining items
processed; and the batch over a concatenation is the concatenation of the
two batches — a failing item never prevents later items from being
processed.  The same holds for `read_multiple_files`, which moreover is
stateless, so its batches compose for arbitrary item lists. -/
theorem c5_batch_isolation (fs : FS) (ds : List (List (Str × Value))) :
    (∃ b fs1, create_multiple_files fs (ds.map Value.vdict) = .ok (b, fs1)) ∧
    (∀ b fs1, create_multiple_files fs (ds.map Value.vdict) = .ok (b, fs1) →
      (b.success = true ↔ b.errors = [])) ∧
    (∀ d, containsKey (Value.vdict d) (chars "path") = false ∨
          containsKey (Value.vdict d) (chars "content") = false →
      create_multiple_files fs [Value.vdict d] =
        .ok ({ success := false, files := [], errors := [malformedMsg] }, fs)) ∧
    (∀ (items2 : List Value) b1 fs1 b2 fs2,
      create_multiple_files fs (ds.map Value.vdict) = .ok (b1, fs1) →
      create_multiple_files fs1 items2 = .ok (b2, fs2) →
      create_multiple_files fs (ds.map Value.vdict ++ items2) =
        .ok ({ success := b1.success && b2.success,
               files := b1.files ++ b2.files,
               errors := b1.errors ++ b2.errors }, fs2)) ∧
    (∀ paths1 paths2 : List Value,
      read_multiple_files fs (paths1 ++ paths2) =
        { success := (read_multiple_files fs paths1).success &&
            (read_multiple_files fs paths2).success,
          files := (read_multiple_files fs paths1).files ++
            (read_multiple_files fs paths2).files,
          errors := (read_multiple_files fs paths1).errors ++
            (read_multiple_files fs paths2).errors }) ∧
    (∀ paths : List Value,
      (read_multiple_files fs paths).success = true ↔
        (read_multiple_files fs paths).errors = []) := by
  refine ⟨?_, ?_, ?_, ?_, ?_, ?_⟩
  · exact cmf_go_dicts_ok fs ds [] []
  · intro b fs1 h
    rw [cmf_go_success h, List.isEmpty_iff]
  · intro d hd
    have hc : (!(containsKey (Value.vdict d) (chars "path")) ||
        !(containsKey (Value.vdict d) (chars "content"))) = true := by
      rcases hd with h | h <;> simp [h]
    unfold create_multiple_files
    rw [cmf_go_cons, if_pos hc]
    rfl
  · intro items2 b1 fs1 b2 fs2 h1 h2
    unfold create_multiple_files at h1 h2 ⊢
    rw [cmf_go_append, h1]
    show cmf_go fs1 items2 b1.files b1.errors = _
    rw [cmf_go_shift fs1 items2 b1.files b1.errors, h2]
    have hs1 := cmf_go_success h1
    have hs2 := cmf_go_success h2
    simp [Except.map, hs1, hs2, isEmpty_append_list]
  · intro paths1 paths2
    unfold read_multiple_files
    rw [rmf_go_append, rmf_go_shift fs paths2 (rmf_go fs paths1 [] []).1
      (rmf_go fs paths1 [] []).2]
    simp [isEmpty_append_list]
  · intro paths
    unfold read_multiple_files
    rw [List.isEmpty_iff]

theorem c5_batch_isolation_witness :
    containsKey (Value.vdict [(chars "path", Value.vstr (chars "/ws/c.txt"))])
      (chars "content") = false ∧
    create_multiple_files fsA [Value.vdict [(chars "path", Value.vstr (chars "/ws/c.txt"))]] =
      .ok ({ success := false, files := [], errors := [malformedMsg] }, fsA) ∧
    (read_multiple_files fsA [Value.vstr (chars "/ws/a.txt"), Value.vstr (chars "/ws/nope")]
      ).success = false := by
  refine ⟨by decide, ?_, ?_⟩
  · exact (c5_batch_isolation fsA []).2.2.1 [(chars "path", Value.vstr (chars "/ws/c.txt"))]
      (Or.inr (by decide))
  · have h := ((c5_batch_isolation fsA []).2.2.2.2.2
      [Value.vstr (chars "/ws/a.txt"), Value.vstr (chars "/ws/nope")])
    rw [Bool.eq_false_iff]
    intro hs
    have := h.mp hs
    revert this
    decide

/-- C7: binary rejection with allowlist precedence.  For a readable file
whose first 1024 bytes contain a NUL: if its extension is not on the
allowlist and its MIME guess is not textual, it is classified binary and
`read_local_file` (for an in-sandbox path within the size ceiling) fails
with the binary-rejection error, regardless of anything else about the
name; if the extension is allowlisted or the MIME guess is textual, the
classification is Text — the allowlist takes precedence over the content
sniff.  Separately, a path the sniffer cannot read is classified binary. -/
theorem c7_binary_rejection (fs : FS) (p c : Str)
    (hf : fs.lookupFile (fs.resolve p) = some c)
    (hnul : (c.take 1024).contains nulChar = true) :
    (textExts.contains (lowerStr (suffixOf (fs.resolve p))) = false →
     mimeIsText fs (fs.resolve p) = false →
      is_text_file fs (fs.resolve p) = false ∧
      (fs.cwd.isPrefixOf (fs.resolve p) = true → c.length ≤ MAX_FILE_SIZE →
        read_local_file fs p = .error (binaryMsg p))) ∧
    (textExts.contains (lowerStr (suffixOf (fs.resolve p))) = true ∨
     mimeIsText fs (fs.resolve p) = true →
      is_text_file fs (fs.resolve p) = true) ∧
    (∀ q, fs.lookupFile q = none → is_binary_file fs q = true) := by
  have hbin : is_binary_file fs (fs.resolve p) = true := by
    unfold is_binary_file
    rw [hf]
    exact hnul
  refine ⟨?_, ?_, ?_⟩
  · intro hext hmime
    have htxt : is_text_file fs (fs.resolve p) = false := by
      unfold is_text_file
      rw [hext, hmime, hbin]
      rfl
    refine ⟨htxt, ?_⟩
    intro hcw hsize
    have hex : fs.pexists (fs.resolve p) = true := by
      simp [FS.pexists, FS.isFile, hf]
    have hns : ¬ (c.length > MAX_FILE_SIZE) := by omega
    unfold read_local_file
    rw [normalize_ok_of_pfx fs p hcw]
    simp [hex, hf, hns, htxt]
  · intro h
    unfold is_text_file
    rcases h with h | h
    · simp
      exact Or.inl (by simpa using h)
    · simp [h]
  · intro q hq
    unfold is_binary_file
    rw [hq]

/-- A host with a NUL-bearing extensionless blob and a NUL-bearing `.txt`
file. -/
def fsB : FS :=
  { cwd := chars "/ws", resolve := fun p => p, guessMime := fun _ => none,
    files := [(chars "/ws/blob", [nulChar]), (chars "/ws/note.txt", [nulChar])],
    dirs := [chars "/ws"] }

theorem c7_binary_rejection_witness :
    fsB.lookupFile (chars "/ws/blob") = some [nulChar] ∧
    (([nulChar] : Str).take 1024).contains nulChar = true ∧
    is_text_file fsB (chars "/ws/blob") = false ∧
    read_local_file fsB (chars "/ws/blob") = .error (binaryMsg (chars "/ws/blob")) ∧
    is_text_file fsB (chars "/ws/note.txt") = true := by
  refine ⟨rfl, by decide, ?_, ?_, ?_⟩
  · exact ((c7_binary_rejection fsB (chars "/ws/blob") [nulChar] rfl (by decide)).1
      (by decide) (by decide)).1
  · exact ((c7_binary_rejection fsB (chars "/ws/blob") [nulChar] rfl (by decide)).1
      (by decide) (by decide)).2 (by decide) (by decide)
  · exact (c7_binary_rejection fsB (chars "/ws/note.txt") [nulChar] rfl (by decide)).2.1
      (Or.inl (by decide))

/-- C8: size ceiling boundary.  For an in-sandbox regular file, a content
of exactly `MAX_FILE_SIZE + 1` bytes makes `read_local_file` fail with the
too-large error, while a content of exactly `MAX_FILE_SIZE` bytes passes
the size check — the result is never the too-large error (it is the
content, or a classification failure, but not a size failure). -/
theorem c8_size_ceiling (fs : FS) (p c : Str)
    (hcw : fs.cwd.isPrefixOf (fs.resolve p) = true)
    (hf : fs.lookupFile (fs.resolve p) = some c) :
    (c.length = MAX_FILE_SIZE + 1 → read_local_file fs p = .error (tooLargeMsg p)) ∧
    (c.length = MAX_FILE_SIZE → read_local_file fs p ≠ .error (tooLargeMsg p)) := by
  have hex : fs.pexists (fs.resolve p) = true := by
    simp [FS.pexists, FS.isFile, hf]
  constructor
  · intro h
    have hgt : c.length > MAX_FILE_SIZE := by omega
    unfold read_local_file
    rw [normalize_ok_of_pfx fs p hcw]
    simp [hex, hf, hgt]
  · intro h
    have hns : ¬ (c.length > MAX_FILE_SIZE) := by omega
    unfold read_local_file
    rw [normalize_ok_of_pfx fs p hcw]
    simp only [hex, Bool.not_true]
    show (if (false = true) then _ else _) ≠ _
    rw [if_neg (by simp)]
    rw [hf]
    show (if c.length > MAX_FILE_SIZE then _ else _) ≠ _
    rw [if_neg hns]
    by_cases htxt : is_text_file fs (fs.resolve p) = true
    · simp [htxt]
    · rw [Bool.eq_false_iff.mpr htxt]
      intro heq
      simp at heq
      exact tooLarge_ne_binary p heq.symm

/-- A host holding a file of exactly the ceiling size and one a byte
larger (both with allowlisted `.txt` names, so classification never reads
the big contents). -/
def fsBig : FS :=
  { cwd := chars "/ws", resolve := fun p => p, guessMime := fun _ => none,
    files := [(chars "/ws/big.txt", List.replicate (MAX_FILE_SIZE + 1) 'a'),
              (chars "/ws/max.txt", List.replicate MAX_FILE_SIZE 'a')],
    dirs := [chars "/ws"] }

theorem c8_size_ceiling_witness :
    (List.replicate (MAX_FILE_SIZE + 1) 'a').length = MAX_FILE_SIZE + 1 ∧
    read_local_file fsBig (chars "/ws/big.txt") = .error (tooLargeMsg (chars "/ws/big.txt")) ∧
    (List.replicate MAX_FILE_SIZE 'a').length = MAX_FILE_SIZE ∧
    read_local_file fsBig (chars "/ws/max.txt") ≠
      .error (tooLargeMsg (chars "/ws/max.txt")) := by
  refine ⟨by simp, ?_, by simp, ?_⟩
  · exact (c8_size_ceiling fsBig (chars "/ws/big.txt")
      (List.replicate (MAX_FILE_SIZE + 1) 'a') (by decide) rfl).1 (by simp)
  · exact (c8_size_ceiling fsBig (chars "/ws/max.txt")
      (List.replicate MAX_FILE_SIZE 'a') (by decide) rfl).2 (by simp)

/-- C9: directory listing.  For an in-sandbox candidate: an absent target
fails with the does-not-exist error; an existing non-directory fails with
the not-a-directory error; an existing directory yields exactly its
immediate children filtered of hidden names (leading `.`) and of the fixed
ignore set, each row carrying the entry name, the kind
(`directory`/`file`), and a byte size for regular files (none otherwise),
with `count` equal to the number of returned rows. -/
theorem c9_list_directory (fs : FS) (d : Str)
    (hcw : fs.cwd.isPrefixOf (fs.resolve d) = true) :
    (fs.pexists (fs.resolve d) = false →
      list_directory fs d = .error (dirNotExistMsg d)) ∧
    (fs.pexists (fs.resolve d) = true → fs.isDir (fs.resolve d) = false →
      list_directory fs d = .error (notDirMsg d)) ∧
    (fs.isDir (fs.resolve d) = true →
      list_directory fs d = .ok
        { directory := fs.resolve d,
          items := ((fs.iterdir (fs.resolve d)).filter keepName).map
            (entryOf fs (fs.resolve d)),
          count := (((fs.iterdir (fs.resolve d)).filter keepName).map
            (entryOf fs (fs.resolve d))).length }) ∧
    (∀ b, list_directory fs d = .ok b →
      b.count = b.items.length ∧
      ∀ it, it ∈ b.items →
        (['.'].isPrefixOf it.name || ignoreNames.contains it.name) = false) := by
  have hmain : ∀ hdir : fs.isDir (fs.resolve d) = true,
      list_directory fs d = .ok
        { directory := fs.resolve d,
          items := ((fs.iterdir (fs.resolve d)).filter keepName).map
            (entryOf fs (fs.resolve d)),
          count := (((fs.iterdir (fs.resolve d)).filter keepName).map
            (entryOf fs (fs.resolve d))).length } := by
    intro hdir
    have hex : fs.pexists (fs.resolve d) = true := by
      simp [FS.pexists, hdir]
    unfold list_directory
    rw [normalize_ok_of_pfx fs d hcw]
    simp [hex, hdir, ld_go_eq_filter]
  refine ⟨?_, ?_, hmain, ?_⟩
  · intro hex
    unfold list_directory
    rw [normalize_ok_of_pfx fs d hcw]
    simp [hex]
  · intro hex hdir
    unfold list_directory
    rw [normalize_ok_of_pfx fs d hcw]
    simp [hex, hdir]
  · intro b hb
    by_cases hex : fs.pexists (fs.resolve d) = true
    · by_cases hdir : fs.isDir (fs.resolve d) = true
      · rw [hmain hdir] at hb
        cases hb
        constructor
        · rfl
        · intro it hit
          obtain ⟨nm, hnm, hent⟩ := List.mem_map.mp hit
          have hkeep : keepName nm = true := (List.mem_filter.mp hnm).2
          have hname : it.name = nm := by rw [← hent]; rfl
          rw [hname]
          unfold keepName at hkeep
          rw [Bool.not_eq_true'] at hkeep
          exact hkeep
      · exfalso
        unfold list_directory at hb
        rw [normalize_ok_of_pfx fs d hcw] at hb
        simp [hex, hdir] at hb
    · exfalso
      unfold list_directory at hb
      rw [normalize_ok_of_pfx fs d hcw] at hb
      simp [Bool.eq_false_iff.mpr hex] at hb

/-- A host with a populated subdirectory `/ws/d`: a regular file, a hidden
file, an ignored directory and an ordinary subdirectory. -/
def fsD : FS :=
  { cwd := chars "/ws", resolve := fun p => p, guessMime := fun _ => none,
    files := [(chars "/ws/d/a.txt", chars "hi"), (chars "/ws/d/.secret", chars "x")],
    dirs := [chars "/ws", chars "/ws/d", chars "/ws/d/venv", chars "/ws/d/sub"] }

theorem c9_list_directory_witness :
    fsD.isDir (chars "/ws/d") = true ∧
    ((fsD.iterdir (chars "/ws/d")).filter keepName).map (entryOf fsD (chars "/ws/d")) =
      [{ name := chars "a.txt", type := chars "file", size := some 2 },
       { name := chars "sub", type := chars "directory", size := none }] ∧
    list_directory fsD (chars "/ws/d") = .ok
      { directory := chars "/ws/d",
        items := ((fsD.iterdir (chars "/ws/d")).filter keepName).map
          (entryOf fsD (chars "/ws/d")),
        count := (((fsD.iterdir (chars "/ws/d")).filter keepName).map
          (entryOf fsD (chars "/ws/d"))).length } := by
  refine ⟨by decide, by decide, ?_⟩
  exact (c9_list_directory fsD (chars "/ws/d") (by decide)).2.2.1 (by decide)
